import Mathlib

/-!
# Verification of `client/manager_rethinkdb.go`

A shallow embedding of `RethinkManager` (package `client`) and theorems
about its cache operations: `GetClient`, `Authenticate`, `CreateClient`,
`ColdStart` and the reconciliation step of `Watch`.

Modelling conventions.

* A Go pointer `*fosite.DefaultClient` is an `Option Addr`: `none` is the nil
  pointer, `some a` points to the record `heap a`.  Go pointers are never
  dangling, so the heap is a total function.
* A Go `map[string]*fosite.DefaultClient` is a `GoMap`: the nil map, or an
  allocated table.  Reading and `delete` work on both; assignment to an
  entry of the nil map is a run-time panic.
* A run-time panic (nil pointer dereference, write to a nil map) is the
  result `none` of an `Option`-valued operation.
* The document store behind `Table`/`Session`, the `Hasher` and `uuid.New`
  are collaborators: their answers are inputs of the operations.
* `sync.RWMutex` locking is not modelled; every operation is one atomic step.
-/

namespace client

/-- A Go byte slice, one natural number below 256 per byte. -/
abbrev Bytes := List Nat

/-- Modelled from the spec: the type `fosite.DefaultClient` is declared outside
the source file.  A client record has an identifier (string), a hashed secret
(byte sequence) and further metadata kept as an uninterpreted payload. -/
structure DefaultClient where
  ID : String
  Secret : Bytes
  Meta : List String
deriving DecidableEq, Repr

/-- The zero value of `fosite.DefaultClient`, as given by `var client fosite.DefaultClient`. -/
def DefaultClient.zero : DefaultClient := ⟨"", [], []⟩

/-- Method `GetID` of `*fosite.DefaultClient` applied to the pointed-to record. -/
def DefaultClient.GetID (c : DefaultClient) : String := c.ID

/-- Method `GetHashedSecret` of `*fosite.DefaultClient` applied to the pointed-to record. -/
def DefaultClient.GetHashedSecret (c : DefaultClient) : Bytes := c.Secret

/-- Heap addresses of client records. -/
abbrev Addr := Nat

/-- The heap: the record every non-nil `*fosite.DefaultClient` points to. -/
abbrev Heap := Addr → DefaultClient

/-- Heap write `*a = c`. -/
def Heap.store (h : Heap) (a : Addr) (c : DefaultClient) : Heap :=
  fun x => if x = a then c else h x

/-- The underlying cause of a collaborator failure (a Go `error` value). -/
abbrev Cause := String

/-- Errors returned by the manager: `errors.New(pkg.ErrNotFound)` and
`errors.New(err)` wrapping a collaborator error `err`. -/
inductive Error where
  | ErrNotFound
  | wrap (cause : Cause)
deriving DecidableEq, Repr

/-- The cache as a mapping: the pointer stored under each id, `none` for an
id that is not a key.  Stored pointers are non-nil: `ColdStart` stores the
address of a variable and `Watch` dereferences `newVal` before storing it. -/
abbrev Cache := String → Option Addr

/-- A Go value of type `map[string]*fosite.DefaultClient`, the type of the
field `Clients`: the nil map (the field was never set) or an allocated map
holding a cache. -/
inductive GoMap where
  | nil
  | table (entries : Cache)

/-- The freshly made map `map[string]*fosite.DefaultClient{}`. -/
def GoMap.empty : GoMap := GoMap.table (fun _ => none)

/-- Two-valued index expression `c, ok := m[k]`; `none` is `ok == false`. -/
def GoMap.lookup : GoMap → String → Option Addr
  | GoMap.nil, _ => none
  | GoMap.table f, k => f k

/-- Builtin `delete(m, k)`; a no-op on the nil map. -/
def GoMap.delete : GoMap → String → GoMap
  | GoMap.nil, _ => GoMap.nil
  | GoMap.table f, k => GoMap.table (fun x => if x = k then none else f x)

/-- Assignment `m[k] = v`; panics (`none`) on the nil map. -/
def GoMap.assign : GoMap → String → Addr → Option GoMap
  | GoMap.nil, _, _ => none
  | GoMap.table f, k, v => some (GoMap.table (fun x => if x = k then some v else f x))

/-- Interface `hash.Hasher`: `Compare` returns `none` for a nil error (match),
`Hash` returns the digest or an error. -/
structure Hasher where
  Compare : Bytes → Bytes → Option Cause
  Hash : Bytes → Except Cause Bytes

/-- The part of `RethinkManager` the operations read and write: the cache
`Clients` and the `Hasher`.  `Session` and `Table` are the external store. -/
structure RethinkManager where
  Clients : GoMap
  Hasher : Hasher

/-- Method `GetClient`: the pointer stored under `id`, or `ErrNotFound`. -/
def RethinkManager.GetClient (m : RethinkManager) (id : String) : Except Error Addr :=
  match m.Clients.lookup id with
  | none => Except.error Error.ErrNotFound
  | some c => Except.ok c

/-- Method `Authenticate`: returns the result together with the manager after
the call. -/
def RethinkManager.Authenticate (h : Heap) (m : RethinkManager) (id : String) (secret : Bytes) :
    Except Error Addr × RethinkManager :=
  match m.Clients.lookup id with
  | none => (Except.error Error.ErrNotFound, m)
  | some c =>
    match m.Hasher.Compare (h c).GetHashedSecret secret with
    | some err => (Except.error (Error.wrap err), m)
    | none => (Except.ok c, m)

/-- Method `publishCreate`: hands `client` to `Table.Insert(..).RunWrite`;
`runWrite` is the store's answer (`none` is success).  Returns the document
the store has persisted, if any, and the error. -/
def publishCreate (runWrite : DefaultClient → Option Cause) (client : DefaultClient) :
    Option DefaultClient × Option Error :=
  match runWrite client with
  | some err => (none, some (Error.wrap err))
  | none => (some client, none)

/-- Outcome of `CreateClient`: the caller's record after the call (it is
updated in place), the document persisted by the store, and the error. -/
structure CreateOutcome where
  record : DefaultClient
  persisted : Option DefaultClient
  err : Option Error

/-- Method `CreateClient`; `c` is the record the argument points to and `uuid`
the value `uuid.New()` would return. -/
def RethinkManager.CreateClient (m : RethinkManager) (uuid : String)
    (runWrite : DefaultClient → Option Cause) (c : DefaultClient) : CreateOutcome :=
  let c1 := if c.ID = "" then { c with ID := uuid } else c
  match m.Hasher.Hash c1.Secret with
  | Except.error err => ⟨c1, none, some (Error.wrap err)⟩
  | Except.ok hash =>
    let c2 := { c1 with Secret := hash }
    match publishCreate runWrite c2 with
    | (p, some err) => ⟨c2, p, some err⟩
    | (p, none) => ⟨c2, p, none⟩

/-- A `gorethink` cursor: the values `Next` decodes before it returns false,
and what `Err()` reports afterwards. -/
structure Cursor (α : Type) where
  rows : List α
  err : Option Cause

/-- The loop `for clients.Next(&client) { m.Clients[client.ID] = &client }` of
`ColdStart`: `client` is the address of the single variable declared before
the loop; every `Next` decodes the next row into it (taken as overwriting the
variable with the row) and the body stores that same address in the map. -/
def coldStartLoop (client : Addr) : List DefaultClient → Heap → GoMap → Option (Heap × GoMap)
  | [], h, clients => some (h, clients)
  | row :: rest, h, clients =>
    let h1 := h.store client row
    match clients.assign (h1 client).ID client with
    | none => none
    | some clients1 => coldStartLoop client rest h1 clients1

/-- Method `ColdStart`; `run` is the answer of `m.Table.Run(m.Session)` and
`client` the address allocated for `var client fosite.DefaultClient`.
Returns the heap, the manager and the returned error; `none` is a panic. -/
def RethinkManager.ColdStart (h : Heap) (m : RethinkManager)
    (run : Except Cause (Cursor DefaultClient)) (client : Addr) :
    Option (Heap × RethinkManager × Option Error) :=
  let m1 := { m with Clients := GoMap.empty }
  match run with
  | Except.error err => some (h, m1, some (Error.wrap err))
  | Except.ok clients =>
    let h1 := h.store client DefaultClient.zero
    match coldStartLoop client clients.rows h1 m1.Clients with
    | none => none
    | some (h2, clients2) => some (h2, { m1 with Clients := clients2 }, none)

/-- The map `update` after `Next` has decoded one change: its entries
`old_val` and `new_val`, nil when the value is absent. -/
structure ChangeEvent where
  old_val : Option Addr
  new_val : Option Addr
deriving DecidableEq, Repr

/-- The body of the `for clients.Next(&update)` loop of `Watch`: the
reconciliation step.  The first two cases are the `if` and the `else if`
branch; the last two are the `else` branch, which evaluates
`newVal.GetID()` and so panics (`none`) when `newVal` is nil. -/
def reconcile (h : Heap) (clients : GoMap) (update : ChangeEvent) : Option GoMap :=
  let newVal := update.new_val
  let oldVal := update.old_val
  match newVal, oldVal with
  | none, some o => some (clients.delete (h o).GetID)
  | some n, some o => (clients.delete (h o).GetID).assign (h n).GetID n
  | some n, none => clients.assign (h n).GetID n
  | none, none => none

/-- The loop `for clients.Next(&update) { ... }` of `Watch` over the events
the cursor delivers. -/
def watchLoop (h : Heap) : GoMap → List ChangeEvent → Option GoMap
  | clients, [] => some clients
  | clients, update :: rest =>
    match reconcile h clients update with
    | none => none
    | some clients1 => watchLoop h clients1 rest

/-- One run of the function `Watch` hands to `pkg.Retry`; `changes` is the
answer of `m.Table.Changes().Run(m.Session)`.  Returns the manager and the
error given back to `Retry`; `none` is a panic. -/
def RethinkManager.watchAttempt (h : Heap) (m : RethinkManager)
    (changes : Except Cause (Cursor ChangeEvent)) : Option (RethinkManager × Option Error) :=
  match changes with
  | Except.error err => some (m, some (Error.wrap err))
  | Except.ok clients =>
    match watchLoop h m.Clients clients.rows with
    | none => none
    | some clients1 =>
      match clients.err with
      | some err => some ({ m with Clients := clients1 }, some (Error.wrap err))
      | none => some ({ m with Clients := clients1 }, none)

/-- The ids an event mentions: `old_val.id` and `new_val.id` where present. -/
def ChangeEvent.ids (h : Heap) (e : ChangeEvent) : List String :=
  (e.old_val.map (fun a => (h a).GetID)).toList ++ (e.new_val.map (fun a => (h a).GetID)).toList

/-! ## Concrete data for evaluating the operations -/

/-- A record with id `A`. -/
def recA : DefaultClient := ⟨"A", [1], ["first"]⟩

/-- A record with id `B`. -/
def recB : DefaultClient := ⟨"B", [2], ["second"]⟩

/-- A heap holding `recA` at address 1 and `recB` at address 2. -/
def sampleHeap : Heap := fun a => if a = 1 then recA else if a = 2 then recB else DefaultClient.zero

/-- A `Hasher` whose digest is the input behind one fixed leading byte, so
that a digest is never equal to its input. -/
def saltHasher : Hasher :=
  ⟨fun digest data => if digest = 36 :: data then none else some "mismatch",
   fun data => Except.ok (36 :: data)⟩

/-- A `Hasher` whose digest is the reversed input and whose `Hash` rejects the
empty input. -/
def reverseHasher : Hasher :=
  ⟨fun digest data => if digest = data.reverse then none else some "mismatch",
   fun data => if data = [] then Except.error "empty secret" else Except.ok data.reverse⟩

/-- A manager whose cache holds address 1 under `A` and address 2 under `B`. -/
def sampleManager : RethinkManager :=
  ⟨GoMap.table (fun k => if k = "A" then some 1 else if k = "B" then some 2 else none),
   reverseHasher⟩

/-! ## Theorems -/

/-- C1 as stated fails on the never-set map: with `Clients` nil and both
values present, `delete` is a no-op and the assignment `m.Clients[..] = newVal`
panics, so the step yields no cache. -/
theorem reconcile_both_present_nil_map :
    reconcile sampleHeap GoMap.nil ⟨some 1, some 2⟩ = none := rfl

/-- C1, amended. Reconciliation step, both values present: for every cache
held in an allocated (non-nil) map `Clients` the step returns a cache that
maps the id of the new value to the new value, does not contain the id of the
old value when the two ids differ, and agrees with the cache before the step
on every other id; when the two ids are equal the step is the assignment of
that one key. -/
theorem reconcile_both_present (h : Heap) (clients : GoMap) (o n : Addr)
    (hc : clients ≠ GoMap.nil) :
    ∃ c, reconcile h clients ⟨some o, some n⟩ = some c ∧
      c.lookup (h n).ID = some n ∧
      ((h o).ID ≠ (h n).ID → c.lookup (h o).ID = none) ∧
      (∀ k, k ≠ (h o).ID → k ≠ (h n).ID → c.lookup k = clients.lookup k) ∧
      ((h o).ID = (h n).ID → some c = clients.assign (h n).ID n) := by
  cases clients with
  | nil => exact absurd rfl hc
  | table entries =>
    refine ⟨_, rfl, ?_, ?_, ?_, ?_⟩
    · simp [GoMap.lookup, DefaultClient.GetID]
    · intro hne
      simp [GoMap.lookup, DefaultClient.GetID, hne]
    · intro k hko hkn
      simp [GoMap.lookup, DefaultClient.GetID, hko, hkn]
    · intro heq
      simp only [GoMap.assign, DefaultClient.GetID, heq, Option.some.injEq, GoMap.table.injEq]
      funext x
      by_cases hx : x = (h n).ID <;> simp [hx]

/-- Witness for C1: the update that replaces `recA` (id `A`) by `recB` (id `B`)
on the allocated cache of `sampleManager`. -/
theorem reconcile_both_present_witness :
    sampleManager.Clients ≠ GoMap.nil ∧
    ∃ c, reconcile sampleHeap sampleManager.Clients ⟨some 1, some 2⟩ = some c ∧
      c.lookup "B" = some 2 ∧ c.lookup "A" = none := by
  have hne : sampleManager.Clients ≠ GoMap.nil := by simp [sampleManager]
  obtain ⟨c, hstep, hnew, hold, _⟩ :=
    reconcile_both_present sampleHeap sampleManager.Clients 1 2 hne
  exact ⟨hne, c, hstep, hnew, hold (by decide)⟩

/-- C2. Reconciliation step, delete event: on every cache (the nil map
included) the step returns a cache that does not contain the id of the old
value and agrees with the cache before the step on every other id. -/
theorem reconcile_delete_event (h : Heap) (clients : GoMap) (o : Addr) :
    ∃ c, reconcile h clients ⟨some o, none⟩ = some c ∧
      c.lookup (h o).ID = none ∧
      (∀ k, k ≠ (h o).ID → c.lookup k = clients.lookup k) := by
  refine ⟨_, rfl, ?_, ?_⟩
  · cases clients <;> simp [GoMap.lookup, GoMap.delete, DefaultClient.GetID]
  · intro k hk
    cases clients <;> simp [GoMap.lookup, GoMap.delete, DefaultClient.GetID, hk]

/-- C3 as stated fails on the never-set map: with `Clients` nil and only the
new value present, the assignment `m.Clients[..] = newVal` panics, so the step
yields no cache. -/
theorem reconcile_insert_nil_map :
    reconcile sampleHeap GoMap.nil ⟨none, some 2⟩ = none := rfl

/-- C3, amended. Reconciliation step, insert event: for every cache held in an
allocated (non-nil) map `Clients` the step returns the cache before the step
with the id of the new value mapped to the new value and every other entry
unchanged. -/
theorem reconcile_insert_event (h : Heap) (clients : GoMap) (n : Addr)
    (hc : clients ≠ GoMap.nil) :
    ∃ c, reconcile h clients ⟨none, some n⟩ = some c ∧
      some c = clients.assign (h n).ID n ∧
      c.lookup (h n).ID = some n ∧
      (∀ k, k ≠ (h n).ID → c.lookup k = clients.lookup k) := by
  cases clients with
  | nil => exact absurd rfl hc
  | table entries =>
    refine ⟨_, rfl, rfl, ?_, ?_⟩
    · simp [GoMap.lookup, DefaultClient.GetID]
    · intro k hk
      simp [GoMap.lookup, DefaultClient.GetID, hk]

/-- Witness for C3: the insert of `recB` (id `B`) into the empty allocated
map leaves `A` absent and stores the new pointer under `B`. -/
theorem reconcile_insert_event_witness :
    GoMap.empty ≠ GoMap.nil ∧
    ∃ c, reconcile sampleHeap GoMap.empty ⟨none, some 2⟩ = some c ∧
      c.lookup "B" = some 2 ∧ c.lookup "A" = none := by
  have hne : GoMap.empty ≠ GoMap.nil := by simp [GoMap.empty]
  obtain ⟨c, hstep, _, hnew, hrest⟩ :=
    reconcile_insert_event sampleHeap GoMap.empty 2 hne
  exact ⟨hne, c, hstep, hnew, hrest "A" (by decide)⟩

/-- The `Watch` loop is the monadic left fold of the reconciliation step. -/
theorem watchLoop_eq_foldlM (h : Heap) (evs : List ChangeEvent) (clients : GoMap) :
    watchLoop h clients evs = evs.foldlM (reconcile h) clients := by
  induction evs generalizing clients with
  | nil => rfl
  | cons e rest ih =>
    simp only [watchLoop, List.foldlM_cons]
    cases hr : reconcile h clients e with
    | none => rfl
    | some c1 => simpa using ih c1

/-- Two steps on events with disjoint ids commute, panics included. -/
theorem reconcile_comm (h : Heap) (clients : GoMap) (e1 e2 : ChangeEvent)
    (hd : ∀ k, k ∈ e1.ids h → k ∉ e2.ids h) :
    (reconcile h clients e1).bind (fun c => reconcile h c e2) =
      (reconcile h clients e2).bind (fun c => reconcile h c e1) := by
  obtain ⟨o1, n1⟩ := e1
  obtain ⟨o2, n2⟩ := e2
  cases clients with
  | nil =>
    cases o1 <;> cases n1 <;> cases o2 <;> cases n2 <;>
      simp [reconcile, GoMap.delete, GoMap.assign]
  | table f =>
    cases o1 <;> cases n1 <;> cases o2 <;> cases n2 <;>
      simp [reconcile, GoMap.delete, GoMap.assign, ChangeEvent.ids, DefaultClient.GetID] at hd ⊢ <;>
      (funext x; split_ifs <;> simp_all)

/-- C4. The cache the `Watch` loop produces from a sequence of events is the
left fold of the reconciliation step from the given cache, and for two events
whose sets of mentioned ids are disjoint the loop yields the same result in
either order (the same cache, or a panic in both orders). -/
theorem watchLoop_fold_and_order (h : Heap) (clients : GoMap) :
    (∀ evs, watchLoop h clients evs = evs.foldlM (reconcile h) clients) ∧
    (∀ e1 e2, (∀ k, k ∈ e1.ids h → k ∉ e2.ids h) →
      watchLoop h clients [e1, e2] = watchLoop h clients [e2, e1]) := by
  refine ⟨fun evs => watchLoop_eq_foldlM h evs clients, ?_⟩
  intro e1 e2 hd
  have hc := reconcile_comm h clients e1 e2 hd
  have hl : ∀ a b, watchLoop h clients [a, b] =
      (reconcile h clients a).bind (fun c => reconcile h c b) := by
    intro a b
    simp only [watchLoop]
    cases reconcile h clients a with
    | none => rfl
    | some c1 =>
      simp only [Option.some_bind]
      cases reconcile h c1 b <;> rfl
  rw [hl, hl, hc]

/-- Witness for C4: the delete of `A` and the insert of `B` mention disjoint
ids and both orders produce a cache. -/
theorem watchLoop_fold_and_order_witness :
    watchLoop sampleHeap GoMap.empty [⟨some 1, none⟩, ⟨none, some 2⟩] =
      watchLoop sampleHeap GoMap.empty [⟨none, some 2⟩, ⟨some 1, none⟩] ∧
    (watchLoop sampleHeap GoMap.empty [⟨some 1, none⟩, ⟨none, some 2⟩]).isSome = true :=
  ⟨(watchLoop_fold_and_order sampleHeap GoMap.empty).2 ⟨some 1, none⟩ ⟨none, some 2⟩
    (by simp [ChangeEvent.ids, sampleHeap, recA, recB, DefaultClient.GetID]), rfl⟩

/-- C5. `Authenticate` succeeds iff the id is a key of the cache and
`Hasher.Compare` on the stored hashed secret and the given secret reports a
match, and it then returns the pointer stored under the id; an absent id gives
`ErrNotFound` whatever the hasher, a mismatch gives the wrapped compare error;
the manager is unchanged in every case. -/
theorem Authenticate_spec (h : Heap) (m : RethinkManager) (id : String) (secret : Bytes) :
    ((∃ c, (m.Authenticate h id secret).1 = Except.ok c) ↔
      ∃ c, m.Clients.lookup id = some c ∧ m.Hasher.Compare (h c).Secret secret = none) ∧
    (∀ c, (m.Authenticate h id secret).1 = Except.ok c → m.Clients.lookup id = some c) ∧
    (m.Clients.lookup id = none → ∀ hs : Hasher,
      (RethinkManager.Authenticate h ⟨m.Clients, hs⟩ id secret).1 =
        Except.error Error.ErrNotFound) ∧
    (∀ c err, m.Clients.lookup id = some c → m.Hasher.Compare (h c).Secret secret = some err →
      (m.Authenticate h id secret).1 = Except.error (Error.wrap err)) ∧
    (m.Authenticate h id secret).2 = m := by
  simp only [RethinkManager.Authenticate, DefaultClient.GetHashedSecret]
  cases hl : m.Clients.lookup id with
  | none => simp
  | some c =>
    cases hc : m.Hasher.Compare (h c).Secret secret with
    | none =>
      simp [hc]
      intro c1 e hce he
      subst hce
      rw [hc] at he
      cases he
    | some err =>
      simp [hc]
      intro c1 e hce he
      subst hce
      rw [hc] at he
      exact Option.some.inj he

/-- C6. `GetClient` fails with `ErrNotFound` iff the id is not a key of the
cache and otherwise returns the pointer stored under the id; on the nil map
and on the empty map it returns `ErrNotFound` for every id. -/
theorem GetClient_spec (m : RethinkManager) (id : String) :
    (m.GetClient id = Except.error Error.ErrNotFound ↔ m.Clients.lookup id = none) ∧
    (∀ c, m.Clients.lookup id = some c → m.GetClient id = Except.ok c) ∧
    (∀ (hs : Hasher) (k : String),
      RethinkManager.GetClient ⟨GoMap.nil, hs⟩ k = Except.error Error.ErrNotFound) ∧
    (∀ (hs : Hasher) (k : String),
      RethinkManager.GetClient ⟨GoMap.empty, hs⟩ k = Except.error Error.ErrNotFound) := by
  unfold RethinkManager.GetClient
  refine ⟨?_, ?_, fun _ _ => rfl, fun _ _ => rfl⟩
  · cases m.Clients.lookup id <;> simp
  · intro c hc
    simp [hc]

/-- C7. Given the contracts of the two collaborators (`uuid.New()` returns a
non-empty string; the digest `Hasher.Hash` returns for a plaintext is never
that plaintext itself): every record `CreateClient` persists has a non-empty id, the
generated one when the input id is empty and the input id otherwise; its secret
is the digest `Hasher.Hash` returns for the plaintext and is not equal to the
plaintext; its other fields are those of the input.  A record is persisted
exactly when hashing succeeds and the store accepts the insert; when hashing
fails nothing is persisted and the wrapped error is returned. -/
theorem CreateClient_spec (m : RethinkManager) (uuid : String)
    (runWrite : DefaultClient → Option Cause) (c : DefaultClient) (huuid : uuid ≠ "")
    (hhash : ∀ data digest, m.Hasher.Hash data = Except.ok digest → digest ≠ data) :
    (∀ p, (m.CreateClient uuid runWrite c).persisted = some p →
      p.ID ≠ "" ∧ (c.ID = "" → p.ID = uuid) ∧ (c.ID ≠ "" → p.ID = c.ID) ∧
      m.Hasher.Hash c.Secret = Except.ok p.Secret ∧
      p.Secret ≠ c.Secret ∧
      p.Meta = c.Meta) ∧
    (∀ d, m.Hasher.Hash c.Secret = Except.ok d →
      runWrite ⟨if c.ID = "" then uuid else c.ID, d, c.Meta⟩ = none →
      (m.CreateClient uuid runWrite c).persisted =
          some ⟨if c.ID = "" then uuid else c.ID, d, c.Meta⟩ ∧
        (m.CreateClient uuid runWrite c).err = none) ∧
    (∀ d e, m.Hasher.Hash c.Secret = Except.ok d →
      runWrite ⟨if c.ID = "" then uuid else c.ID, d, c.Meta⟩ = some e →
      (m.CreateClient uuid runWrite c).persisted = none ∧
        (m.CreateClient uuid runWrite c).err = some (Error.wrap e)) ∧
    (∀ e, m.Hasher.Hash c.Secret = Except.error e →
      (m.CreateClient uuid runWrite c).persisted = none ∧
        (m.CreateClient uuid runWrite c).err = some (Error.wrap e)) := by
  have hsec : (if c.ID = "" then { c with ID := uuid } else c).Secret = c.Secret := by
    split_ifs <;> rfl
  have hdoc : ∀ d, ({ (if c.ID = "" then { c with ID := uuid } else c) with Secret := d } :
      DefaultClient) = ⟨if c.ID = "" then uuid else c.ID, d, c.Meta⟩ := by
    intro d
    split_ifs <;> rfl
  simp only [RethinkManager.CreateClient, publishCreate, hsec, hdoc]
  cases hh : m.Hasher.Hash c.Secret with
  | error e => simp
  | ok d =>
    dsimp only
    cases hw : runWrite ⟨if c.ID = "" then uuid else c.ID, d, c.Meta⟩ with
    | some e =>
      dsimp only
      refine ⟨by simp, ?_, ?_, by simp⟩
      · intro d1 hd1 hw1
        cases hd1
        rw [hw] at hw1
        cases hw1
      · intro d1 e1 hd1 hw1
        cases hd1
        rw [hw] at hw1
        cases hw1
        exact ⟨rfl, rfl⟩
    | none =>
      dsimp only
      refine ⟨?_, ?_, ?_, by simp⟩
      · intro p hp
        cases hp
        refine ⟨?_, ?_, ?_, rfl, hhash c.Secret d hh, rfl⟩
        · by_cases hid : c.ID = "" <;> simp [hid, huuid]
        · intro hid
          simp [hid]
        · intro hid
          simp [hid]
      · intro d1 hd1 _
        cases hd1
        exact ⟨rfl, rfl⟩
      · intro d1 e1 hd1 hw1
        cases hd1
        rw [hw] at hw1
        cases hw1

/-- Witness for C7: a record without id and with plaintext `[115, 50]`, hashed
by `saltHasher` to `[36, 115, 50]` and accepted by the store; the persisted
record carries the generated id and a secret different from the plaintext. -/
theorem CreateClient_spec_witness :
    "generated-id" ≠ "" ∧
    (∀ data digest, saltHasher.Hash data = Except.ok digest → digest ≠ data) ∧
    ∃ p, (RethinkManager.CreateClient ⟨GoMap.empty, saltHasher⟩ "generated-id"
        (fun _ => none) ⟨"", [115, 50], ["meta"]⟩).persisted = some p ∧
      p.ID = "generated-id" ∧ p.Secret = [36, 115, 50] ∧ p.Secret ≠ [115, 50] := by
  have hu : "generated-id" ≠ "" := by decide
  have hh : ∀ data digest, saltHasher.Hash data = Except.ok digest → digest ≠ data := by
    intro data digest hd
    simp only [saltHasher] at hd
    cases hd
    exact List.cons_ne_self 36 data
  have hspec := CreateClient_spec ⟨GoMap.empty, saltHasher⟩ "generated-id" (fun _ => none)
    ⟨"", [115, 50], ["meta"]⟩ hu hh
  have hp := (hspec.2.1 [36, 115, 50] rfl rfl).1
  obtain ⟨_, hid, _, _, hne, _⟩ := hspec.1 _ hp
  exact ⟨hu, hh, _, hp, hid rfl, rfl, hne⟩

/-- The loop of `ColdStart` on an allocated map: every row overwrites the one
variable at `client`, and every row id is mapped to that same address. -/
theorem coldStartLoop_table (client : Addr) (rows : List DefaultClient) (h : Heap)
    (f : Cache) :
    coldStartLoop client rows h (GoMap.table f) =
      some (rows.foldl (fun hp r => hp.store client r) h,
        GoMap.table (fun k => if k ∈ rows.map (fun r => r.ID) then some client else f k)) := by
  induction rows generalizing h f with
  | nil => simp [coldStartLoop]
  | cons row rest ih =>
    simp only [coldStartLoop, GoMap.assign, Heap.store, if_true, List.foldl_cons, ih,
      Option.some.injEq, Prod.mk.injEq, GoMap.table.injEq, true_and, List.map_cons,
      List.mem_cons]
    funext k
    by_cases h1 : k ∈ rest.map (fun r => r.ID) <;> by_cases h2 : k = row.ID <;> simp [h1, h2]

/-- After the loop of `ColdStart` the variable at `client` holds the last row
(or its initial value when there was no row). -/
theorem coldStartLoop_heap (client : Addr) (rows : List DefaultClient) (h : Heap) :
    (rows.foldl (fun hp r => hp.store client r) h) client = (rows.getLast?).getD (h client) := by
  induction rows generalizing h with
  | nil => rfl
  | cons row rest ih =>
    rw [List.foldl_cons, ih]
    cases rest with
    | nil => simp [Heap.store]
    | cons r2 rest2 =>
      rw [List.getLast?_eq_getLast _ (List.cons_ne_nil r2 rest2),
        List.getLast?_eq_getLast _ (List.cons_ne_nil row (r2 :: rest2))]
      simp

/-- What `ColdStart` does on a scan that opens: it does not panic, returns no
error whatever `Err()` of the cursor reports, drops the prior cache, has
exactly the row ids as keys, and maps every key to the one address `client`,
which holds the last row. -/
theorem ColdStart_ok (h : Heap) (m : RethinkManager) (cur : Cursor DefaultClient) (client : Addr) :
    ∃ h2 m2, m.ColdStart h (Except.ok cur) client = some (h2, m2, none) ∧
      (∀ k, m2.Clients.lookup k =
        if k ∈ cur.rows.map (fun r => r.ID) then some client else none) ∧
      h2 client = (cur.rows.getLast?).getD DefaultClient.zero := by
  have hl := coldStartLoop_table client cur.rows (h.store client DefaultClient.zero)
    (fun _ => none)
  refine ⟨cur.rows.foldl (fun hp r => hp.store client r) (h.store client DefaultClient.zero),
    ⟨GoMap.table (fun k => if k ∈ cur.rows.map (fun r => r.ID) then some client else none),
      m.Hasher⟩, ?_, ?_, ?_⟩
  · simp only [RethinkManager.ColdStart, GoMap.empty, hl]
  · intro k
    rfl
  · rw [coldStartLoop_heap]
    simp [Heap.store]

/-- When the scan cannot be opened `ColdStart` returns the wrapped error and
leaves the cache empty. -/
theorem ColdStart_run_error (h : Heap) (m : RethinkManager) (err : Cause) (client : Addr) :
    m.ColdStart h (Except.error err) client =
      some (h, { m with Clients := GoMap.empty }, some (Error.wrap err)) := rfl

/-- C8, evaluated on a scan returning `recA` and `recB`: `ColdStart` succeeds
and the cache has the keys `A` and `B`, but both map to the one address 0 that
holds `recB`, so the record read under `A` is `recB`, not `recA`. -/
theorem ColdStart_entries_alias_last_row :
    ∃ h2 m2, sampleManager.ColdStart sampleHeap (Except.ok ⟨[recA, recB], none⟩) 0 =
        some (h2, m2, none) ∧
      m2.Clients.lookup "A" = some 0 ∧ m2.Clients.lookup "B" = some 0 ∧
      h2 0 = recB ∧ h2 0 ≠ recA := by
  refine ⟨_, _, rfl, ?_, ?_, ?_, ?_⟩
  · decide
  · decide
  · decide
  · decide

/-- C9, evaluated on a scan that delivers `recA` and then fails with
`connection lost`: `ColdStart` returns no error. -/
theorem ColdStart_ignores_cursor_error :
    ∃ h2 m2, sampleManager.ColdStart sampleHeap
      (Except.ok ⟨[recA], some "connection lost"⟩) 0 = some (h2, m2, none) :=
  ⟨_, _, rfl⟩

/-- The `Watch` attempt, unlike `ColdStart`, returns the error `Err()` reports
after its loop. -/
theorem watchAttempt_cursor_error (h : Heap) (m : RethinkManager) (evs : List ChangeEvent)
    (err : Cause) (clients1 : GoMap) (hl : watchLoop h m.Clients evs = some clients1) :
    m.watchAttempt h (Except.ok ⟨evs, some err⟩) =
      some ({ m with Clients := clients1 }, some (Error.wrap err)) := by
  simp [RethinkManager.watchAttempt, hl]

/-- C10, the failing event: when both values are absent the reconciliation
step panics, on every cache. -/
theorem reconcile_both_absent_panics (h : Heap) (clients : GoMap) :
    reconcile h clients ⟨none, none⟩ = none := rfl

/-- On an allocated map the reconciliation step panics only on the event with
both values absent. -/
theorem reconcile_table_isSome (h : Heap) (f : Cache) (e : ChangeEvent) :
    (reconcile h (GoMap.table f) e).isSome = (e.old_val.isSome || e.new_val.isSome) := by
  obtain ⟨o, n⟩ := e
  cases o <;> cases n <;> rfl

/-- On the nil map the reconciliation step panics on every event that carries
a new value: the assignment writes to a nil map. -/
theorem reconcile_nil_map_write (h : Heap) (o : Option Addr) (n : Addr) :
    reconcile h GoMap.nil ⟨o, some n⟩ = none := by
  cases o <;> rfl

end client
